import Mathlib

/-!
Verification of the email-validation engine (server/validators/email.js,
server/validators/smtp.js, server/validators/providers.js,
server/routes/validation.js, server/lib/proxyManager.js) against its
natural-language specification.

The JavaScript code is shallowly embedded: strings are lists of characters,
JS numbers used as timestamps are integers, fallible asynchronous calls are
values of `Except`, and the mutable proxy pool is threaded explicitly as a
state value.  Absent JavaScript object keys (whose reads yield `undefined`,
a falsy value) are modelled as `false` / `none`, as noted at each site.
-/

/-- A JavaScript value given to the validator: either a string or any
non-string value (null, undefined, numbers, objects).  The format check
of `validateEmailFormat` rejects every non-string up front, so non-string
values need no further structure. -/
inductive JSValue where
  | str (s : String)
  | other (tag : String)
deriving DecidableEq

/-- The character class `[a-zA-Z0-9]` of the format regex.
`Char.isAlpha` and `Char.isDigit` cover exactly the ASCII ranges. -/
def isAlnum (c : Char) : Bool := c.isAlpha || c.isDigit

/-- The character class `[a-zA-Z0-9._%+-]` of the format regex. -/
def isLocalChar (c : Char) : Bool :=
  isAlnum c || c = '.' || c = '_' || c = '%' || c = '+' || c = '-'

/-- JavaScript `String.prototype.split` with a one-character separator:
`"a@@b".split("@") = ["a","","b"]`, `"".split("@") = [""]`. -/
def splitOnChar (sep : Char) : List Char → List (List Char)
  | [] => [[]]
  | c :: rest =>
    if c = sep then [] :: splitOnChar sep rest
    else
      match splitOnChar sep rest with
      | [] => [[c]]
      | l :: ls => (c :: l) :: ls

/-- The local-part component `[a-zA-Z0-9](?:[a-zA-Z0-9._%+-]{0,61}[a-zA-Z0-9])?`
of the format regex in email.js.  Given the whole local part (no `@` in it),
the regex is deterministic: a single character must be alphanumeric; with
two or more characters the optional group must consume the rest, so the
first and last characters are alphanumeric and the middle characters (at
most 61 of them) lie in the extended class. -/
def localOk : List Char → Bool
  | [] => false
  | [c] => isAlnum c
  | c :: rest =>
    isAlnum c &&
    (match rest.getLast? with
     | some d => isAlnum d
     | none => false) &&
    rest.dropLast.all isLocalChar &&
    decide (rest.dropLast.length ≤ 61)

/-- The first domain label `[a-zA-Z0-9](?:[a-zA-Z0-9-]*[a-zA-Z0-9])?` of the
format regex: nonempty, first and last characters alphanumeric, middle
characters alphanumeric or hyphen. -/
def labelOk : List Char → Bool
  | [] => false
  | [c] => isAlnum c
  | c :: rest =>
    isAlnum c &&
    (match rest.getLast? with
     | some d => isAlnum d
     | none => false) &&
    rest.dropLast.all (fun ch => isAlnum ch || ch = '-')

/-- One group of `(?:\.[a-zA-Z]{2,})+` after its dot: two or more letters. -/
def tldOk (t : List Char) : Bool := decide (t.length ≥ 2) && t.all Char.isAlpha

/-- The domain component of the format regex.  The label class has no dot
and the dotted groups contain only letters, so splitting the domain at its
dots is faithful: the first segment must be a label and every further
segment (at least one) a TLD of two or more letters. -/
def domainOk (l : List Char) : Bool :=
  match splitOnChar '.' l with
  | [] => false
  | [_] => false
  | lab :: tlds => labelOk lab && tlds.all tldOk

/-- The whole regex
`^[a-zA-Z0-9](?:[a-zA-Z0-9._%+-]{0,61}[a-zA-Z0-9])?@[a-zA-Z0-9](?:[a-zA-Z0-9-]*[a-zA-Z0-9])?(?:\.[a-zA-Z]{2,})+$`.
Neither side of the `@` may contain an `@`, so the string matches exactly
when splitting at `@` yields two segments matching the two components. -/
def emailMatch (l : List Char) : Bool :=
  match splitOnChar '@' l with
  | [loc, dom] => localOk loc && domainOk dom
  | _ => false

/-- `validateEmailFormat` of email.js: `!email || typeof email !== 'string'`
returns false (the empty string is falsy), otherwise the regex is tested. -/
def validateEmailFormat (email : JSValue) : Bool :=
  match email with
  | .str s => if s = "" then false else emailMatch s.toList
  | .other _ => false

/-! ## readResponse (smtp.js)

`readResponse` accumulates incoming data chunks into `response`; once the
buffer contains `"\r\n"` it splits the buffer at every `"\r\n"` and resolves
with the first line matching `^[0-9]{3}(?:[ -].*)?$`.  A missing resolution
after all chunks models the timeout rejection. -/

/-- The per-line pattern `^[0-9]{3}(?:[ -].*)?$`: three digits, then either
nothing or a space/hyphen followed by arbitrary non-newline characters
(JavaScript `.` does not match `\n` or `\r`). -/
def matchesReply : List Char → Bool
  | d1 :: d2 :: d3 :: rest =>
    d1.isDigit && d2.isDigit && d3.isDigit &&
    (match rest with
     | [] => true
     | c :: cs => (c = ' ' || c = '-') && cs.all (fun ch => ch ≠ '\n' && ch ≠ '\r'))
  | _ => false

/-- JavaScript `response.includes("\r\n")`. -/
def hasCRLF : List Char → Bool
  | [] => false
  | [_] => false
  | a :: b :: rest => (a = '\r' && b = '\n') || hasCRLF (b :: rest)

/-- JavaScript `response.split("\r\n")`. -/
def splitCRLF : List Char → List (List Char)
  | [] => [[]]
  | [c] => [[c]]
  | a :: b :: rest =>
    if a = '\r' && b = '\n' then [] :: splitCRLF rest
    else
      match splitCRLF (b :: rest) with
      | [] => [[a]]
      | l :: ls => (a :: l) :: ls

/-- The `handleData` loop of `readResponse`: append the chunk, and if the
buffer contains CRLF, resolve with the first line matching the pattern. -/
def readResponseGo : List (List Char) → List Char → Option (List Char)
  | [], _ => none
  | chunk :: rest, acc =>
    let acc' := acc ++ chunk
    if hasCRLF acc' then
      match (splitCRLF acc').find? matchesReply with
      | some line => some line
      | none => readResponseGo rest acc'
    else readResponseGo rest acc'

/-- `readResponse` of smtp.js over the sequence of data chunks delivered by
the socket; `none` models the response timeout. -/
def readResponse (chunks : List (List Char)) : Option (List Char) :=
  readResponseGo chunks []

/-! ## ProxyManager (server/lib/proxyManager.js)

`failures` and `connections` are JavaScript integers kept at or above zero
by the code itself (`Math.max(0, n - 1)`), so they are modelled as `Nat`,
with truncated subtraction realising the clamp.  `lastUsed` is a
`Date.now()` timestamp, modelled as an integer. -/

structure ProxyEntry where
  host : String
  port : Nat
  failures : Nat
  connections : Nat
  lastUsed : Int
deriving DecidableEq

def MAX_FAILURES : Nat := 3
def MAX_CONNECTIONS : Nat := 3
def COOLDOWN_PERIOD : Int := 30000

/-- The pool: the proxy list and the rotating cursor `currentIndex`. -/
structure PoolState where
  proxies : List ProxyEntry
  currentIndex : Nat
deriving DecidableEq

/-- The skip condition of `getNextProxy`:
`proxy.failures >= MAX_FAILURES || proxy.connections >= MAX_CONNECTIONS ||
 now - proxy.lastUsed < COOLDOWN_PERIOD`. -/
def skipProxy (now : Int) (p : ProxyEntry) : Bool :=
  decide (p.failures ≥ MAX_FAILURES) || decide (p.connections ≥ MAX_CONNECTIONS) ||
    decide (now - p.lastUsed < COOLDOWN_PERIOD)

/-- The `while (attempts < this.proxies.length)` scan of `getNextProxy`,
with `fuel` counting the remaining permitted skips.  Each step reads the
proxy at the cursor, advances the cursor modulo the pool size, and either
skips or selects the proxy, marking `lastUsed = now` and incrementing
`connections`.  Returns the selected index, the updated list and the new
cursor. -/
def scanLoop (now : Int) : List ProxyEntry → Nat → Nat → Option Nat × List ProxyEntry × Nat
  | ps, idx, 0 => (none, ps, idx)
  | ps, idx, fuel + 1 =>
    match ps.get? idx with
    | none => (none, ps, idx)
    | some p =>
      let idx' := (idx + 1) % ps.length
      if skipProxy now p then scanLoop now ps idx' fuel
      else (some idx, ps.set idx { p with lastUsed := now, connections := p.connections + 1 }, idx')

/-- The global reset: every proxy gets `failures = 0`, `connections = 0`,
`lastUsed = 0`. -/
def resetAll (ps : List ProxyEntry) : List ProxyEntry :=
  ps.map fun p => { p with failures := 0, connections := 0, lastUsed := 0 }

/-- `getNextProxy`, with its recursive retry bounded by `resetBudget`: the
JavaScript recursion fires the global reset at most once, because the
reset zeroes every failure count, so the all-failed condition of a second
reset is false on a nonempty pool (the exhausted-budget branch is
unreachable, see `getNextProxyGo_budget_immaterial`). -/
def getNextProxyGo : Nat → PoolState → Int → Option Nat × PoolState
  | resetBudget, s, now =>
    if s.proxies.length = 0 then (none, s)
    else
      match scanLoop now s.proxies s.currentIndex s.proxies.length with
      | (some i, ps, c) => (some i, ⟨ps, c⟩)
      | (none, ps, c) =>
        if ps.all (fun p => decide (p.failures ≥ MAX_FAILURES)) then
          match resetBudget with
          | 0 => (none, ⟨ps, c⟩)
          | budget + 1 => getNextProxyGo budget ⟨resetAll ps, c⟩ now
        else (none, ⟨ps, c⟩)

/-- `ProxyManager.getNextProxy`.  The result is the index of the returned
proxy (the JavaScript code returns the object itself) together with the
mutated pool. -/
def getNextProxy (s : PoolState) (now : Int) : Option Nat × PoolState :=
  getNextProxyGo 1 s now

/-- Update the proxy at one index, leaving the pool unchanged when the
index is out of range. -/
def modifyProxy (s : PoolState) (i : Nat) (f : ProxyEntry → ProxyEntry) : PoolState :=
  match s.proxies.get? i with
  | some p => { s with proxies := s.proxies.set i (f p) }
  | none => s

/-- `markProxyFailure`: `failures++`, `connections = Math.max(0, connections - 1)`. -/
def markProxyFailure (s : PoolState) (i : Nat) : PoolState :=
  modifyProxy s i fun p => { p with failures := p.failures + 1, connections := p.connections - 1 }

/-- `markProxySuccess`: `failures = 0`. -/
def markProxySuccess (s : PoolState) (i : Nat) : PoolState :=
  modifyProxy s i fun p => { p with failures := 0 }

/-- `releaseProxy`: `connections = Math.max(0, connections - 1)`. -/
def releaseProxy (s : PoolState) (i : Nat) : PoolState :=
  modifyProxy s i fun p => { p with connections := p.connections - 1 }

/-! Specification-side view of the scan, kept independent of `scanLoop`:
the cursor-order list of indices of one full cycle, and the first eligible
index found along it. -/

/-- The indices visited by one full cycle starting at cursor `c`. -/
def scanOrder (n c : Nat) : List Nat := (List.range n).map fun k => (c + k) % n

/-- Eligibility of the proxy at index `i` of the list `ps` at time `now`. -/
def eligibleAt (now : Int) (ps : List ProxyEntry) (i : Nat) : Bool :=
  match ps.get? i with
  | some p => !skipProxy now p
  | none => false

/-- The first eligible index in cursor order, if any. -/
def firstEligibleIdx (now : Int) (s : PoolState) : Option Nat :=
  (scanOrder s.proxies.length s.currentIndex).find? (eligibleAt now s.proxies)

/-- What one acquisition round does, phrased from the specification side:
pick the first eligible index of the cycle, stamp it with `now`, increment
its connection count and park the cursor just past it; otherwise leave the
pool untouched. -/
def acquireSpec (s : PoolState) (now : Int) : Option Nat × PoolState :=
  match firstEligibleIdx now s with
  | some i =>
    match s.proxies.get? i with
    | some p =>
      (some i, ⟨s.proxies.set i { p with lastUsed := now, connections := p.connections + 1 },
        (i + 1) % s.proxies.length⟩)
    | none => (none, s)
  | none => (none, s)

/-! ## Provider registry (providers.js) -/

structure ProviderConfig where
  provider : String
  domains : List (List Char)
  mxDomains : List (List Char)
  reliable : Bool
  heloHost : Option (List Char)
  verifyMailbox : Bool
  requireTLS : Bool
  rejectCatchAll : Bool
  timeout : Nat
  acceptCodes : List Nat
  rejectCodes : List Nat
  retryAttempts : Nat
  customValidation : Bool
deriving DecidableEq

def gmailConfig : ProviderConfig :=
  { provider := "gmail.com"
    domains := ["gmail.com".toList, "googlemail.com".toList]
    mxDomains := ["google.com".toList, "googlemail.com".toList, "gmail.com".toList]
    reliable := true
    heloHost := some "gmail-smtp-in.l.google.com".toList
    verifyMailbox := true
    requireTLS := true
    rejectCatchAll := true
    timeout := 15000
    acceptCodes := [250]
    rejectCodes := [550, 551, 552, 553, 554]
    retryAttempts := 2
    customValidation := false }

def outlookConfig : ProviderConfig :=
  { provider := "outlook.com"
    domains := ["outlook.com".toList, "hotmail.com".toList, "live.com".toList, "msn.com".toList]
    mxDomains := ["outlook.com".toList, "hotmail.com".toList, "microsoft.com".toList]
    reliable := true
    heloHost := some "outlook-com.olc.protection.outlook.com".toList
    verifyMailbox := true
    requireTLS := false
    rejectCatchAll := true
    timeout := 30000
    acceptCodes := [250, 251, 252]
    rejectCodes := [550, 551, 552, 553, 554]
    retryAttempts := 3
    customValidation := true }

def yahooConfig : ProviderConfig :=
  { provider := "yahoo.com"
    domains := ["yahoo.com".toList, "ymail.com".toList]
    mxDomains := ["yahoo.com".toList, "yahoodns.net".toList]
    reliable := true
    heloHost := some "mta7.am0.yahoodns.net".toList
    verifyMailbox := true
    requireTLS := true
    rejectCatchAll := true
    timeout := 12000
    acceptCodes := [250]
    rejectCodes := [550, 551, 552, 553, 554]
    retryAttempts := 2
    customValidation := false }

def genericConfig : ProviderConfig :=
  { provider := "generic"
    domains := []
    mxDomains := []
    reliable := false
    heloHost := none
    verifyMailbox := true
    requireTLS := false
    rejectCatchAll := true
    timeout := 10000
    acceptCodes := [250, 251, 252]
    rejectCodes := [550, 551, 552, 553, 554]
    retryAttempts := 2
    customValidation := false }

/-- `a.startsWith(b)` as a prefix test: `prefB needle hay`. -/
def prefB : List Char → List Char → Bool
  | [], _ => true
  | _ :: _, [] => false
  | a :: as, b :: bs => a = b && prefB as bs

/-- JavaScript `hay.includes(needle)`. -/
def containsSub (needle : List Char) : List Char → Bool
  | [] => prefB needle []
  | h :: t => prefB needle (h :: t) || containsSub needle t

/-- `getProviderConfig` of providers.js: lowercase the domain, first look
for an exact member of a profile's `domains`, then for a profile one of
whose `mxDomains` occurs as a substring of the domain, else the generic
profile.  `Object.entries` iterates the three profiles in declaration
order. -/
def getProviderConfig (domain : List Char) : ProviderConfig :=
  let ld := domain.map Char.toLower
  match [gmailConfig, outlookConfig, yahooConfig].find? (fun c => c.domains.contains ld) with
  | some c => c
  | none =>
    match [gmailConfig, outlookConfig, yahooConfig].find?
        (fun c => c.mxDomains.any fun m => containsSub m ld) with
    | some c => c
    | none => genericConfig

/-! ## SMTP dialog (smtp.js, verifyMailbox) -/

/-- The outcome object of a `verifyMailbox` call.  The success object
literal of smtp.js is `{ success: true, mailboxExists, code, message }`:
it has no `isCatchAll` and no `error` key, so reading those yields
`undefined`, modelled as `false` / `none`.  The failure object is
`{ success: false, mailboxExists: false, error }`. -/
structure VerifyResult where
  success : Bool
  mailboxExists : Bool
  isCatchAll : Bool
  code : Option Nat
  message : Option (List Char)
  error : Option String
deriving DecidableEq

/-- The commands `writeCommand` sends during one dialog. -/
inductive SmtpCmd where
  | ehlo (d : List Char)
  | helo (d : List Char)
  | mailFrom (a : List Char)
  | rcptTo (a : List Char)
  | quit
deriving DecidableEq

def isRcptCmd : SmtpCmd → Bool
  | .rcptTo _ => true
  | _ => false

/-- The responses the server resolves for each read of the dialog (each
one a line as produced by `readResponse`). -/
structure ServerScript where
  greeting : List Char
  ehlo : List Char
  helo : List Char
  mailFrom : List Char
  rcpt : List Char
deriving DecidableEq

/-- JavaScript `parseInt(s, 10)` on the three-digit slice: the leading
digits as a number, `none` for `NaN`. -/
def parseLeadingNat (l : List Char) : Option Nat :=
  let ds := l.takeWhile Char.isDigit
  if ds = [] then none
  else some (ds.foldl (fun n c => n * 10 + (c.toNat - 48)) 0)

/-- The tail of the dialog after a `250` HELO or EHLO response:
`MAIL FROM`, then `RCPT TO`, recording the three-digit code; the recipient
is reported to exist on `2xx`, `451` or `452`. -/
def smtpAfterHelo (sc : ServerScript) (email fromAddr : List Char) (cmds : List SmtpCmd) :
    List SmtpCmd × Except String VerifyResult :=
  let cmds := cmds ++ [.mailFrom fromAddr]
  if !prefB "250".toList sc.mailFrom then (cmds, .error "MAIL FROM failed")
  else
    let cmds := cmds ++ [.rcptTo email]
    let code := sc.rcpt.take 3
    let exists? := prefB "2".toList code || code = "451".toList || code = "452".toList
    (cmds, .ok { success := true, mailboxExists := exists?, isCatchAll := false,
                 code := parseLeadingNat code, message := some (sc.rcpt.drop 4), error := none })

/-- One SMTP conversation of `verifyMailbox` after the socket is connected:
greeting must start with `220`; `EHLO`, falling back to `HELO`, must yield
`250`; then `smtpAfterHelo`.  Returns the commands sent (`QUIT` of the
cleanup excluded; it happens on every post-connect exit path) and either
the completed-dialog result or the thrown error message. -/
def smtpAttempt (sc : ServerScript) (email domain fromAddr : List Char) :
    List SmtpCmd × Except String VerifyResult :=
  if !prefB "220".toList sc.greeting then ([], .error "Invalid server greeting")
  else
    let cmds : List SmtpCmd := [.ehlo domain]
    if prefB "250".toList sc.ehlo then smtpAfterHelo sc email fromAddr cmds
    else
      let cmds := cmds ++ [.helo domain]
      if prefB "250".toList sc.helo then smtpAfterHelo sc email fromAddr cmds
      else (cmds, .error "HELO/EHLO failed")

/-! ## verifyMailbox retry loop (smtp.js) -/

/-- The environment of one connection attempt: the outcome of
`createProxyConnection` through the SOCKS proxy and, when it succeeds, the
server's responses. -/
structure AttemptEnv where
  connect : Except String Unit
  script : ServerScript

/-- The failure object returned after the retry budget is spent:
`{ success: false, mailboxExists: false, error: "Verification failed after 3 attempts" }`. -/
def verifyFailRes : VerifyResult :=
  { success := false, mailboxExists := false, isCatchAll := false,
    code := none, message := none, error := some "Verification failed after 3 attempts" }

structure VerifyRunOut where
  result : VerifyResult
  pool : PoolState
  dials : List Nat
deriving DecidableEq

/-- The `while (retryCount < MAX_RETRIES)` loop of `verifyMailbox`.  Each
attempt acquires a proxy from the pool (throwing `No available proxies`
when none is returned, with no socket dialled and — `currentProxy` being
null — no failure marked); on a connection error `createProxyConnection`
marks the proxy failed and rethrows, and the outer catch marks it failed
again; on a dialog error the outer catch marks the proxy failed and the
cleanup destroys the socket, whose close handler releases the proxy; on a
completed dialog the proxy is marked successful and the cleanup close
releases it.  `dials` is the ghost list of attempt indices on which a
connection was dialled.  Inter-attempt delays are dropped from the pure
model. -/
def verifyMailboxGo (env : Nat → AttemptEnv) (nows : Nat → Int)
    (email domain fromAddr : List Char) : Nat → Nat → PoolState → List Nat → VerifyRunOut
  | 0, _, pool, dials => { result := verifyFailRes, pool := pool, dials := dials }
  | fuel + 1, retryCount, pool, dials =>
    match getNextProxy pool (nows retryCount) with
    | (none, pool1) =>
      verifyMailboxGo env nows email domain fromAddr fuel (retryCount + 1) pool1 dials
    | (some i, pool1) =>
      let dials1 := dials ++ [retryCount]
      match (env retryCount).connect with
      | .error _ =>
        verifyMailboxGo env nows email domain fromAddr fuel (retryCount + 1)
          (markProxyFailure (markProxyFailure pool1 i) i) dials1
      | .ok _ =>
        match (smtpAttempt (env retryCount).script email domain fromAddr).2 with
        | .error _ =>
          verifyMailboxGo env nows email domain fromAddr fuel (retryCount + 1)
            (releaseProxy (markProxyFailure pool1 i) i) dials1
        | .ok r => { result := r, pool := releaseProxy (markProxySuccess pool1 i) i, dials := dials1 }

/-- `verifyMailbox host email domain` driven by per-attempt environments,
starting with an untouched retry counter: the `retryCount < MAX_RETRIES`
loop guard is realised by the remaining-attempts count `3 - retryCount`,
here `3`. -/
def verifyMailboxRun (env : Nat → AttemptEnv) (nows : Nat → Int)
    (email domain fromAddr : List Char) (pool : PoolState) : VerifyRunOut :=
  verifyMailboxGo env nows email domain fromAddr 3 0 pool []

/-! ## validateEmail (email.js) -/

structure MXRecord where
  exchange : List Char
  priority : Int
deriving DecidableEq

/-- The stable ascending-priority sort applied by `checkMX`
(`records.sort((a, b) => a.priority - b.priority)`). -/
def insertByPriority (m : MXRecord) : List MXRecord → List MXRecord
  | [] => [m]
  | x :: xs => if m.priority < x.priority then m :: x :: xs else x :: insertByPriority m xs

def sortByPriority (l : List MXRecord) : List MXRecord := l.foldr insertByPriority []

/-- The resolver-facing environment of one `validateEmail` call: the
outcomes of the A/AAAA/CNAME lookups, the MX lookup (`none` models a
rejected `resolveMx`), the TXT lookup, and — for each position `i` of the
sorted MX list — the outcome of the awaited
`verifyMailbox`/`verifyMailboxWithRetry` call (`Except.error` models a
rejected promise). -/
structure VEnv where
  dnsA : Bool
  dnsAAAA : Bool
  dnsCNAME : Bool
  mxRaw : Option (List MXRecord)
  txt : Option (List (List String))
  verify : Nat → Except String VerifyResult

/-- `checkDNS`: `Promise.allSettled` of the three lookups; true when some
lookup fulfilled. -/
def checkDNS (env : VEnv) : Bool := env.dnsA || env.dnsAAAA || env.dnsCNAME

/-- `checkMX`: the priority-sorted records, or `none` when the lookup
failed or returned an empty list. -/
def checkMX (env : VEnv) : Option (List MXRecord) :=
  match env.mxRaw with
  | none => none
  | some records => if records.length > 0 then some (sortByPriority records) else none

/-- `checkSPF`: the first flattened TXT record starting with `v=spf1`,
`none` on a failed lookup. -/
def checkSPF (env : VEnv) : Option String :=
  match env.txt with
  | none => none
  | some recs => recs.flatten.find? (fun r => r.startsWith "v=spf1")

structure Checks where
  format : Bool := false
  dns : Bool := false
  mx : Bool := false
  spf : Bool := false
  smtp : Bool := false
  mailbox : Bool := false
  catchAll : Bool := false
deriving DecidableEq

structure ValidationResult where
  email : JSValue
  valid : Bool
  checks : Checks
  mxRecords : List MXRecord
  spfRecord : Option String
  smtpResponse : Option VerifyResult
  reason : String
deriving DecidableEq

/-- The running state of the `for (const mx of mxRecords)` loop of
`validateEmail`, plus the ghost list `probed` of MX positions whose
verify call was awaited. -/
structure MxLoopState where
  checks : Checks
  smtpResponse : Option VerifyResult
  lastError : Option String
  smtpSuccess : Bool
  valid : Bool
  reason : String
  probed : List Nat
deriving DecidableEq

/-- The MX loop body of `validateEmail`: on a fulfilled verify with
`success`, record the smtp/mailbox/catchAll checks and the response; break
with the catch-all reason when `isCatchAll` and the profile rejects
catch-alls; break with `smtpSuccess` when the mailbox exists; otherwise
fall through to `lastError = verifyResult.error` (undefined — `none` — on
a success object) and continue.  A rejected verify is caught, stores the
message in `lastError` and continues. -/
def mxLoop (verify : Nat → Except String VerifyResult) (cfg : ProviderConfig) :
    Nat → List MXRecord → MxLoopState → MxLoopState
  | _, [], st => st
  | i, _ :: rest, st =>
    let st := { st with probed := st.probed ++ [i] }
    match verify i with
    | .error e => mxLoop verify cfg (i + 1) rest { st with lastError := some e }
    | .ok r =>
      if r.success then
        let cks := { st.checks with smtp := true, mailbox := r.mailboxExists, catchAll := r.isCatchAll }
        let st := { st with checks := cks, smtpResponse := some r }
        if r.isCatchAll && cfg.rejectCatchAll then
          { st with valid := false, reason := "Catch-all domain detected" }
        else if r.mailboxExists then
          { st with smtpSuccess := true }
        else
          mxLoop verify cfg (i + 1) rest { st with lastError := r.error }
      else
        mxLoop verify cfg (i + 1) rest { st with lastError := r.error }

/-- The staged pipeline of `validateEmail` for a string input that passed
the format check, returning the result and the ghost list of probed MX
positions.  `email.split('@')` destructures into the first two segments. -/
def validateEmailStr (s : String) (env : VEnv) : ValidationResult × List Nat :=
  let r0 : ValidationResult :=
    { email := .str s, valid := false, checks := { format := true }, mxRecords := [],
      spfRecord := none, smtpResponse := none, reason := "" }
  let parts := splitOnChar '@' s.toList
  let localPart := parts.headD []
  let domain := (parts.get? 1).getD []
  if localPart.length > 64 then ({ r0 with reason := "Local part exceeds maximum length" }, [])
  else if domain.length > 255 then ({ r0 with reason := "Domain exceeds maximum length" }, [])
  else
    let dnsOk := checkDNS env
    let r1 := { r0 with checks := { r0.checks with dns := dnsOk } }
    if !dnsOk then ({ r1 with reason := "Domain does not exist" }, [])
    else
      match checkMX env with
      | none => ({ r1 with reason := "No mail servers found for domain" }, [])
      | some mxs =>
        let r2 := { r1 with checks := { r1.checks with mx := true }, mxRecords := mxs }
        let spfR := checkSPF env
        let r3 := { r2 with checks := { r2.checks with spf := spfR.isSome }, spfRecord := spfR }
        let cfg := getProviderConfig domain
        let lo := mxLoop env.verify cfg 0 mxs
          { checks := r3.checks, smtpResponse := none, lastError := none,
            smtpSuccess := false, valid := false, reason := "", probed := [] }
        let r4 := { r3 with checks := lo.checks, smtpResponse := lo.smtpResponse, valid := lo.valid, reason := lo.reason }
        if lo.smtpSuccess then ({ r4 with valid := true, reason := "Email is valid" }, lo.probed)
        else if r4.checks.dns && r4.checks.mx then
          ({ r4 with valid := false, reason := lo.lastError.getD "Failed to verify mailbox" },
            lo.probed)
        else ({ r4 with valid := false, reason := "Domain validation failed" }, lo.probed)

/-- `validateEmail` with the ghost probe list.  A failed format check —
including every non-string input — returns immediately with
`Invalid email format`.  The surrounding try/catch of email.js is
unreachable in the model: the only fallible awaited calls inside the try
block are the verify calls, and the loop's inner catch consumes their
errors (`mxLoop` matches on both constructors of `Except`). -/
def validateEmailFull (email : JSValue) (env : VEnv) : ValidationResult × List Nat :=
  let base : ValidationResult :=
    { email := email, valid := false, checks := {}, mxRecords := [],
      spfRecord := none, smtpResponse := none, reason := "" }
  match email with
  | .other t => ({ base with email := .other t, reason := "Invalid email format" }, [])
  | .str s =>
    if validateEmailFormat (.str s) then validateEmailStr s env
    else ({ base with reason := "Invalid email format" }, [])

/-- `validateEmail` of email.js. -/
def validateEmail (email : JSValue) (env : VEnv) : ValidationResult :=
  (validateEmailFull email env).1

/-- The ghost list of MX positions probed during `validateEmail`. -/
def validateProbes (email : JSValue) (env : VEnv) : List Nat :=
  (validateEmailFull email env).2

/-! ## validateEmailWithRetry and the batch routes (validation.js) -/

/-- The promise of a `validateEmail(email)` call as awaited by the routes:
the async function returns its `result` object from the normal path and
from its own catch block alike, so the promise always fulfills. -/
def validateEmailCall (email : JSValue) (env : VEnv) : Except String ValidationResult :=
  .ok (validateEmail email env)

/-- `validateEmailWithRetry` of validation.js: rejections are retried up
to `MAX_RETRIES = 3` times (the inter-attempt delay is dropped from the
pure model), then rethrown. -/
def validateEmailWithRetry (email : JSValue) (env : VEnv) (retryCount : Nat) :
    Except String ValidationResult :=
  match validateEmailCall email env with
  | .ok r => .ok r
  | .error e =>
    if _h : retryCount < 3 then validateEmailWithRetry email env (retryCount + 1)
    else .error e
termination_by 3 - retryCount
decreasing_by omega

/-- One settled promise of `Promise.allSettled` in the batch route: the
fulfilled value, or the rejection value's optional `.message`. -/
inductive SettleOutcome where
  | fulfilled (r : ValidationResult)
  | rejected (msg : Option String)

/-- The placeholder entry pushed for a rejected item:
`{ valid: false, reason, checks: { format..mailbox: false } }`.  The
object has no `email`, `catchAll`, `mxRecords` or details keys; the absent
keys are modelled by their falsy defaults. -/
def placeholderResult (msg : Option String) : ValidationResult :=
  { email := .other "undefined", valid := false,
    checks := { format := false, dns := false, mx := false, spf := false,
                smtp := false, mailbox := false, catchAll := false },
    mxRecords := [], spfRecord := none, smtpResponse := none,
    reason := msg.getD "Validation failed" }

/-- Mapping one settled outcome to its result-array entry. -/
def settle (f : JSValue → SettleOutcome) (e : JSValue) : ValidationResult :=
  match f e with
  | .fulfilled r => r
  | .rejected m => placeholderResult m

/-- The `/validate/batch` loop: slices of `BATCH_SIZE = 5`, each settled
by `Promise.allSettled` (which never rejects, so the catch around it is
dead code) and appended in order; the inter-batch delay is dropped. -/
def batchValidate (f : JSValue → SettleOutcome) : List JSValue → List ValidationResult
  | [] => []
  | e :: es =>
    ((e :: es).take 5).map (settle f) ++ batchValidate f ((e :: es).drop 5)
termination_by l => l.length
decreasing_by simp; omega

/-! ## The /validate/bulk streaming loop (validation.js) -/

/-- One parsed CSV data row; each field is `none` when the column is
absent. -/
structure CsvRecord where
  email : Option String
  emailCap : Option String
  emailUpper : Option String
deriving DecidableEq

/-- JavaScript truthiness of a string field: empty strings are falsy. -/
def truthyStr : Option String → Option String
  | some s => if s = "" then none else some s
  | none => none

/-- `record.email || record.Email || record.EMAIL`. -/
def getEmailField (r : CsvRecord) : Option String :=
  match truthyStr r.email with
  | some s => some s
  | none =>
    match truthyStr r.emailCap with
    | some s => some s
    | none => truthyStr r.emailUpper

/-- The accumulator of the bulk loop: the pending batch, the number of
validated emails, and the results pushed so far. -/
structure BulkState (α : Type) where
  batch : List String
  processed : Nat
  results : List α

/-- The body of `for await (const record of parser)`: rows without a
truthy email column are skipped entirely; otherwise the email joins the
pending batch, which is flushed through validation when it reaches
`BATCH_SIZE = 5` or when `processed + batch.length === total` (the
first-pass row count).  `f` is the per-item validation outcome
(`validateEmailWithRetry` never rejects, so `Promise.all` settles and the
catch branch that would push error placeholders is dead code). -/
def bulkStep {α : Type} (f : String → α) (total : Nat) (st : BulkState α) (r : CsvRecord) :
    BulkState α :=
  match getEmailField r with
  | none => st
  | some e =>
    let batch' := st.batch ++ [e]
    if batch'.length = 5 ∨ st.processed + batch'.length = total then
      { batch := [], processed := st.processed + batch'.length,
        results := st.results ++ batch'.map f }
    else { st with batch := batch' }

/-- The results list of the final `complete` event of `/validate/bulk`:
`total` is the first pass's count of all data rows. -/
def bulkRun {α : Type} (f : String → α) (rows : List CsvRecord) : List α :=
  (rows.foldl (bulkStep f rows.length) ⟨[], 0, []⟩).results

/-! ## Shared helper lemmas and concrete fixtures -/

/-- An environment in which every DNS lookup fails and every verify call
rejects; used to exercise the early pipeline stages on concrete inputs. -/
def envNone : VEnv :=
  { dnsA := false, dnsAAAA := false, dnsCNAME := false, mxRaw := none, txt := none,
    verify := fun _ => .error "network unavailable" }

theorem splitOnChar_append (sep : Char) (l r : List Char) (h : l.all (fun c => !(c = sep))) :
    splitOnChar sep (l ++ sep :: r) = l :: splitOnChar sep r := by
  induction l with
  | nil => simp [splitOnChar]
  | cons c l' ih =>
    simp only [List.all_cons, Bool.and_eq_true, Bool.not_eq_true'] at h
    obtain ⟨hc, hl⟩ := h
    have hc' : ¬(c = sep) := by simpa using hc
    simp only [List.cons_append, splitOnChar, List.append_eq]
    rw [if_neg hc', ih (by simpa using hl)]

theorem getLast?_cons_replicate (n : Nat) (c : Char) :
    (c :: List.replicate n c).getLast? = some c := by
  induction n with
  | zero => rfl
  | succ n ih =>
    rw [List.replicate_succ, List.getLast?_cons_cons]
    exact ih

theorem dropLast_cons_replicate (n : Nat) (c : Char) :
    (c :: List.replicate n c).dropLast = List.replicate n c := by
  induction n with
  | zero => rfl
  | succ n ih =>
    rw [List.replicate_succ c n, List.dropLast_cons₂, ih]

theorem all_replicate (n : Nat) (c : Char) (p : Char → Bool) (hp : p c = true) :
    (List.replicate n c).all p = true := by
  simp [List.all_eq_true, List.mem_replicate]
  tauto

/-- The local-part component of the format regex on an all-`a` local part:
it accepts exactly the lengths 1 through 63 (one leading alphanumeric, at
most 61 middle characters, one trailing alphanumeric). -/
theorem localOk_replicate (n : Nat) (h : 1 ≤ n) :
    localOk (List.replicate n 'a') = decide (n ≤ 63) := by
  match n, h with
  | 1, _ => decide
  | (m + 2), _ =>
    have h1 : List.replicate (m + 2) 'a' = 'a' :: 'a' :: List.replicate m 'a' := by
      rw [List.replicate_succ, List.replicate_succ]
    rw [h1]
    simp only [localOk]
    rw [getLast?_cons_replicate m 'a', dropLast_cons_replicate m 'a']
    rw [all_replicate m 'a' isLocalChar (by decide)]
    simp only [List.length_replicate]
    show ((isAlnum 'a' && isAlnum 'a') && true && decide (m ≤ 61)) = decide (m + 2 ≤ 63)
    have ha : isAlnum 'a' = true := by decide
    rw [ha]
    simp only [Bool.true_and, Bool.and_true, decide_eq_decide]
    omega

/-- Claim C6 (counterexample): an otherwise well-formed address with a
64-character local part is already rejected by the format regex — it does
not reach the length stage: `validateEmailFormat` is false and
`validateEmail` reports `Invalid email format` with `checks.format = false`. -/
theorem C6_counterexample :
    validateEmailFormat (.str (String.mk (List.replicate 64 'a' ++ "@example.com".toList))) = false ∧
    (validateEmail (.str (String.mk (List.replicate 64 'a' ++ "@example.com".toList))) envNone).reason = "Invalid email format" ∧
    (validateEmail (.str (String.mk (List.replicate 64 'a' ++ "@example.com".toList))) envNone).checks.format = false :=
  ⟨by decide, by decide, by decide⟩

/-- Claim C6 (amended): the format regex accepts one leading alphanumeric,
up to 61 (not 62) further characters of `[A-Za-z0-9._%+-]`, and a trailing
alphanumeric — a local part of up to 63 characters.  An all-`a` local part
of length `n ≥ 1` on a well-formed domain matches the regex exactly when
`n ≤ 63`; in particular 63 characters pass the format and length stages
(the concrete run proceeds to the DNS stage) while 64 characters are
rejected at the format stage. -/
theorem C6_amended (n : Nat) (h : 1 ≤ n) :
    emailMatch (List.replicate n 'a' ++ "@example.com".toList) = decide (n ≤ 63) ∧
    (validateEmail (.str (String.mk (List.replicate 63 'a' ++ "@example.com".toList))) envNone).checks.format = true ∧
    (validateEmail (.str (String.mk (List.replicate 63 'a' ++ "@example.com".toList))) envNone).reason = "Domain does not exist" := by
  refine ⟨?_, by decide, by decide⟩
  have hsplit : "@example.com".toList = '@' :: "example.com".toList := rfl
  rw [hsplit]
  simp only [emailMatch]
  rw [splitOnChar_append '@' (List.replicate n 'a') "example.com".toList
    (all_replicate n 'a' _ (by decide))]
  have hdom : splitOnChar '@' "example.com".toList = ["example.com".toList] := by decide
  rw [hdom]
  show (localOk (List.replicate n 'a') && domainOk "example.com".toList) = decide (n ≤ 63)
  have hd : domainOk "example.com".toList = true := by decide
  rw [hd, localOk_replicate n h, Bool.and_true]

/-- Claim C6 (witness): the amended theorem at the boundary length 63. -/
theorem C6_amended_witness :
    1 ≤ 63 ∧
    (emailMatch (List.replicate 63 'a' ++ "@example.com".toList) = decide (63 ≤ 63) ∧
    (validateEmail (.str (String.mk (List.replicate 63 'a' ++ "@example.com".toList))) envNone).checks.format = true ∧
    (validateEmail (.str (String.mk (List.replicate 63 'a' ++ "@example.com".toList))) envNone).reason = "Domain does not exist") :=
  ⟨by decide, C6_amended 63 (by decide)⟩

theorem hasCRLF_append_crlf (x y : List Char) : hasCRLF (x ++ '\r' :: '\n' :: y) = true := by
  induction x with
  | nil => simp [hasCRLF]
  | cons c x' ih =>
    cases x' with
    | nil => simp [hasCRLF]
    | cons d x'' => simp [hasCRLF] at ih ⊢; tauto

theorem splitCRLF_append_crlf (l rest : List Char) (h : l.all (fun c => !(c = '\r'))) :
    splitCRLF (l ++ '\r' :: '\n' :: rest) = l :: splitCRLF rest := by
  induction l with
  | nil => simp [splitCRLF]
  | cons c l' ih =>
    simp only [List.all_cons, Bool.and_eq_true, Bool.not_eq_true'] at h
    obtain ⟨hc, hl'⟩ := h
    have hc' : ¬(c = '\r') := by simpa using hc
    cases l' with
    | nil =>
      simp only [List.nil_append, List.cons_append, splitCRLF]
      rw [if_neg (by simp [hc'])]
      simp [splitCRLF]
    | cons d l'' =>
      have ihh := ih (by simpa using hl')
      simp only [List.cons_append, splitCRLF, List.append_eq] at ihh ⊢
      rw [if_neg (by simp [hc'])]
      rw [ihh]

/-- A three-digit-prefixed continuation line `NNN-...` satisfies the
response pattern of `readResponse` just as a terminating `NNN ...` line
does, because the character class of the pattern is `[ -]`. -/
theorem matchesReply_cont (code a : List Char) (hlen : code.length = 3)
    (hdig : code.all Char.isDigit)
    (ha : a.all (fun c => !(c = '\n') && !(c = '\r'))) :
    matchesReply (code ++ '-' :: a) = true := by
  match code, hlen with
  | [c1, c2, c3], _ =>
    simp only [List.all_cons, List.all_nil, Bool.and_eq_true, Bool.and_true] at hdig
    simp only [List.cons_append, List.nil_append, matchesReply]
    simp [hdig.1, hdig.2.1, hdig.2.2]
    simp only [List.all_eq_true, Bool.and_eq_true] at ha
    intro x hx
    have h2 := ha x hx
    exact ⟨by simpa using h2.1, by simpa using h2.2⟩

/-- Claim C1 (counterexample): on the multi-line reply
`250-HELLO\r\n250 END\r\n`, delivered in one chunk, `readResponse`
resolves with the continuation line `250-HELLO` — not with the
terminating line `250 END`: the resolved line has `-` in position 3. -/
theorem C1_counterexample :
    readResponse ["250-HELLO\r\n250 END\r\n".toList] = some "250-HELLO".toList ∧
    "250-HELLO".toList ≠ "250 END".toList ∧
    "250-HELLO".toList.get? 3 = some '-' :=
  ⟨by decide, by decide, by decide⟩

/-- Claim C1 (amended): `readResponse` resolves with the first line of the
accumulated buffer matching `^[0-9]{3}([ -].*)?$`.  For every two-line
reply `NNN-a\r\nNNN b\r\n` (three-digit code, `a` free of CR and LF) it
therefore returns the leading continuation line `NNN-a`, not the
terminating `NNN b` line. -/
theorem C1_amended (code a b : List Char) (hlen : code.length = 3)
    (hdig : code.all Char.isDigit)
    (ha : a.all (fun c => !(c = '\n') && !(c = '\r'))) :
    readResponse [(code ++ '-' :: a) ++ '\r' :: '\n' :: ((code ++ ' ' :: b) ++ ['\r', '\n'])] =
      some (code ++ '-' :: a) := by
  have hnoCR : ((code ++ '-' :: a).all (fun c => !(c = '\r'))) = true := by
    simp only [List.all_append, List.all_cons, Bool.and_eq_true]
    refine ⟨?_, by decide, ?_⟩
    · simp only [List.all_eq_true] at hdig ⊢
      intro x hx
      have hd := hdig x hx
      simp only [Bool.not_eq_true', decide_eq_false_iff_not]
      intro hxr; subst hxr; exact absurd hd (by decide)
    · simp only [List.all_eq_true, Bool.and_eq_true] at ha ⊢
      intro x hx; simpa using (ha x hx).2
  simp only [readResponse, readResponseGo, List.nil_append]
  rw [hasCRLF_append_crlf]
  simp only [if_true]
  rw [splitCRLF_append_crlf _ _ hnoCR]
  rw [List.find?]
  rw [matchesReply_cont code a hlen hdig ha]

/-- Claim C1 (witness): the amended theorem on the reply
`250-FEATURES\r\n250 END\r\n`. -/
theorem C1_amended_witness :
    ("250".toList.length = 3 ∧ "250".toList.all Char.isDigit = true ∧
      "FEATURES".toList.all (fun c => !(c = '\n') && !(c = '\r')) = true) ∧
    readResponse [("250".toList ++ '-' :: "FEATURES".toList) ++ '\r' :: '\n' ::
        (("250".toList ++ ' ' :: "END".toList) ++ ['\r', '\n'])] =
      some ("250".toList ++ '-' :: "FEATURES".toList) :=
  ⟨⟨by decide, by decide, by decide⟩,
    C1_amended "250".toList "FEATURES".toList "END".toList (by decide) (by decide) (by decide)⟩

theorem batchValidate_bounded (f : JSValue → SettleOutcome) :
    ∀ (n : Nat) (es : List JSValue), es.length ≤ n → batchValidate f es = es.map (settle f) := by
  intro n
  induction n with
  | zero =>
    intro es h
    cases es with
    | nil => simp [batchValidate]
    | cons e es' => simp at h
  | succ n ih =>
    intro es h
    cases es with
    | nil => simp [batchValidate]
    | cons e es' =>
      simp only [List.length_cons] at h
      rw [batchValidate]
      rw [ih ((e :: es').drop 5) (by simp only [List.length_drop, List.length_cons]; omega)]
      rw [← List.map_append, List.take_append_drop]

/-- Claim C8: the batch route settles every submitted email in order —
the output equals the per-item settlement map, so it has exactly the
input's length and order; a rejected item settles to the placeholder
entry, whose `valid` and all of whose checks are false, and settlement of
one item never touches the others. -/
theorem C8_batch_order (f : JSValue → SettleOutcome) (es : List JSValue) :
    batchValidate f es = es.map (settle f) ∧
    (batchValidate f es).length = es.length ∧
    (∀ (m : Option String) (e : JSValue),
      settle (fun _ => SettleOutcome.rejected m) e = placeholderResult m) ∧
    (∀ m : Option String, (placeholderResult m).valid = false ∧
      (placeholderResult m).checks.format = false ∧ (placeholderResult m).checks.dns = false ∧
      (placeholderResult m).checks.mx = false ∧ (placeholderResult m).checks.spf = false ∧
      (placeholderResult m).checks.smtp = false ∧ (placeholderResult m).checks.mailbox = false ∧
      (placeholderResult m).checks.catchAll = false) := by
  refine ⟨batchValidate_bounded f es.length es le_rfl, ?_, ?_, ?_⟩
  · rw [batchValidate_bounded f es.length es le_rfl, List.length_map]
  · intro m e; rfl
  · intro m
    exact ⟨rfl, rfl, rfl, rfl, rfl, rfl, rfl, rfl⟩

/-- Claim C9: `validateEmail` never rejects — the promise of every call,
for string and non-string inputs alike, fulfills with a `ValidationResult`
(every fallible verify outcome is consumed inside the MX loop's catch, and
a failed format check returns a reason immediately) — so
`validateEmailWithRetry` of validation.js is extensionally a single
`validateEmail` call for every starting retry count: its retry branch and
delay are unreachable. -/
theorem C9_retry_extensional (email : JSValue) (env : VEnv) (retryCount : Nat) :
    validateEmailCall email env = Except.ok (validateEmail email env) ∧
    validateEmailWithRetry email env retryCount = Except.ok (validateEmail email env) := by
  constructor
  · rfl
  · rw [validateEmailWithRetry]
    rfl

/-- A completed RCPT dialog carrying a definitive `550` rejection, as
produced by verifyMailbox for a rejected recipient. -/
def rcpt550Res : VerifyResult :=
  { success := true, mailboxExists := false, isCatchAll := false,
    code := some 550, message := some "5.1.1 User unknown".toList, error := none }

/-- Two mail exchangers for the same domain, in priority order. -/
def envC5 : VEnv :=
  { dnsA := true, dnsAAAA := false, dnsCNAME := false,
    mxRaw := some [{ exchange := "mx1.example.com".toList, priority := 10 },
                   { exchange := "mx2.example.com".toList, priority := 20 }],
    txt := some [],
    verify := fun _ => .ok rcpt550Res }

/-- Claim C5 (counterexample): with two MX hosts whose completed dialogs
both answer RCPT with `550`, the loop probes both of them — the
definitive rejection on the first, higher-priority host does not
short-circuit the MX loop. -/
theorem C5_counterexample :
    validateProbes (.str "user@example.com") envC5 = [0, 1] ∧
    (validateEmail (.str "user@example.com") envC5).checks.smtp = true ∧
    (validateEmail (.str "user@example.com") envC5).checks.mailbox = false ∧
    (validateEmail (.str "user@example.com") envC5).reason = "Failed to verify mailbox" :=
  ⟨by decide, by decide, by decide, by decide⟩

/-- Claim C5 (amended): within the MX loop of `validateEmail`, a completed
dialog (success, no catch-all break) with `mailboxExists = false` — in
particular a clear `5xx` rejection — does not break the loop: the loop
records the checks, stores `verifyResult.error` in `lastError`, and
continues with the next MX position.  Only a completed dialog with
`mailboxExists = true` (or the catch-all break) short-circuits. -/
theorem C5_amended (verify : Nat → Except String VerifyResult) (cfg : ProviderConfig)
    (i : Nat) (mx : MXRecord) (rest : List MXRecord) (st : MxLoopState) (r : VerifyResult)
    (hv : verify i = .ok r) (hs : r.success = true)
    (hca : (r.isCatchAll && cfg.rejectCatchAll) = false) :
    (r.mailboxExists = false →
      mxLoop verify cfg i (mx :: rest) st =
        mxLoop verify cfg (i + 1) rest
          { st with
            checks := { st.checks with smtp := true, mailbox := false, catchAll := r.isCatchAll },
            smtpResponse := some r,
            lastError := r.error,
            probed := st.probed ++ [i] }) ∧
    (r.mailboxExists = true →
      mxLoop verify cfg i (mx :: rest) st =
        { st with
          checks := { st.checks with smtp := true, mailbox := true, catchAll := r.isCatchAll },
          smtpResponse := some r,
          smtpSuccess := true,
          probed := st.probed ++ [i] }) := by
  constructor
  · intro hm
    simp only [mxLoop, hv, hs, hca, hm]
    rfl
  · intro hm
    simp only [mxLoop, hv, hs, hca, hm]
    rfl

/-- The initial state of the MX loop. -/
def st0 : MxLoopState :=
  { checks := { format := true, dns := true, mx := true }, smtpResponse := none,
    lastError := none, smtpSuccess := false, valid := false, reason := "", probed := [] }

/-- Claim C5 (witness): the amended theorem at a concrete `550` dialog on
the first of two MX hosts. -/
theorem C5_amended_witness :
    ((fun _ => Except.ok rcpt550Res : Nat → Except String VerifyResult) 0 =
        Except.ok rcpt550Res ∧
      rcpt550Res.success = true ∧
      (rcpt550Res.isCatchAll && genericConfig.rejectCatchAll) = false) ∧
    ((rcpt550Res.mailboxExists = false →
      mxLoop (fun _ => Except.ok rcpt550Res) genericConfig 0
          [{ exchange := "mx2.example.com".toList, priority := 20 }] st0 =
        mxLoop (fun _ => Except.ok rcpt550Res) genericConfig (0 + 1) []
          { st0 with
            checks := { st0.checks with smtp := true, mailbox := false, catchAll := rcpt550Res.isCatchAll },
            smtpResponse := some rcpt550Res,
            lastError := rcpt550Res.error,
            probed := st0.probed ++ [0] }) ∧
    (rcpt550Res.mailboxExists = true →
      mxLoop (fun _ => Except.ok rcpt550Res) genericConfig 0
          [{ exchange := "mx2.example.com".toList, priority := 20 }] st0 =
        { st0 with
          checks := { st0.checks with smtp := true, mailbox := true, catchAll := rcpt550Res.isCatchAll },
          smtpResponse := some rcpt550Res,
          smtpSuccess := true,
          probed := st0.probed ++ [0] })) :=
  ⟨⟨rfl, by decide, by decide⟩,
    C5_amended (fun _ => Except.ok rcpt550Res) genericConfig 0
      { exchange := "mx2.example.com".toList, priority := 20 } [] st0 rcpt550Res
      rfl (by decide) (by decide)⟩

theorem mxLoop_catchAll_clean (verify : Nat → Except String VerifyResult) (cfg : ProviderConfig)
    (hok : ∀ i r, verify i = Except.ok r →
      r.isCatchAll = false ∧ r.error ≠ some "Catch-all domain detected")
    (herr : ∀ i e, verify i = Except.error e → e ≠ "Catch-all domain detected") :
    ∀ (mxs : List MXRecord) (i : Nat) (st : MxLoopState),
      st.checks.catchAll = false →
      st.lastError ≠ some "Catch-all domain detected" →
      st.reason ≠ "Catch-all domain detected" →
      (mxLoop verify cfg i mxs st).checks.catchAll = false ∧
      (mxLoop verify cfg i mxs st).lastError ≠ some "Catch-all domain detected" ∧
      (mxLoop verify cfg i mxs st).reason ≠ "Catch-all domain detected" := by
  intro mxs
  induction mxs with
  | nil => intro i st h1 h2 h3; exact ⟨h1, h2, h3⟩
  | cons mx rest ih =>
    intro i st h1 h2 h3
    simp only [mxLoop]
    cases hv : verify i with
    | error e =>
      simp only [hv]
      refine ih (i + 1) _ h1 ?_ h3
      have := herr i e hv
      simp only [ne_eq, Option.some.injEq]
      exact this
    | ok r =>
      simp only [hv]
      have hca := (hok i r hv).1
      have herr' := (hok i r hv).2
      by_cases hs : r.success = true
      · rw [if_pos hs, hca]
        rw [if_neg (by simp)]
        by_cases hm : r.mailboxExists = true
        · rw [if_pos hm]
          exact ⟨rfl, h2, h3⟩
        · rw [if_neg hm]
          exact ih (i + 1) _ rfl herr' h3
      · rw [if_neg hs]
        exact ih (i + 1) _ h1 herr' h3

theorem validateEmail_no_catchAll (email : JSValue) (env : VEnv)
    (hok : ∀ i r, env.verify i = Except.ok r →
      r.isCatchAll = false ∧ r.error ≠ some "Catch-all domain detected")
    (herr : ∀ i e, env.verify i = Except.error e → e ≠ "Catch-all domain detected") :
    (validateEmail email env).checks.catchAll = false ∧
    (validateEmail email env).reason ≠ "Catch-all domain detected" := by
  cases email with
  | other t =>
    exact ⟨rfl, by show ¬(("Invalid email format" : String) = "Catch-all domain detected"); decide⟩
  | str s =>
    simp only [validateEmail, validateEmailFull]
    by_cases hf : validateEmailFormat (.str s) = true
    · rw [if_pos hf]
      simp only [validateEmailStr]
      split
      · exact ⟨rfl, by show ¬(("Local part exceeds maximum length" : String) = "Catch-all domain detected"); decide⟩
      · split
        · exact ⟨rfl, by show ¬(("Domain exceeds maximum length" : String) = "Catch-all domain detected"); decide⟩
        · split
          · exact ⟨rfl, by show ¬(("Domain does not exist" : String) = "Catch-all domain detected"); decide⟩
          · split
            · exact ⟨rfl, by show ¬(("No mail servers found for domain" : String) = "Catch-all domain detected"); decide⟩
            · rename_i mxs hmx
              set M := mxLoop env.verify (getProviderConfig (((splitOnChar '@' s.toList).get? 1).getD [])) 0 mxs
                { checks := { format := true, dns := checkDNS env, mx := true, spf := (checkSPF env).isSome, smtp := false, mailbox := false, catchAll := false },
                  smtpResponse := none, lastError := none, smtpSuccess := false, valid := false, reason := "", probed := [] } with hM
              have H := mxLoop_catchAll_clean env.verify
                (getProviderConfig (((splitOnChar '@' s.toList).get? 1).getD [])) hok herr mxs 0
                { checks := { format := true, dns := checkDNS env, mx := true, spf := (checkSPF env).isSome, smtp := false, mailbox := false, catchAll := false },
                  smtpResponse := none, lastError := none, smtpSuccess := false, valid := false, reason := "", probed := [] }
                rfl (by simp) (by show ¬(("" : String) = "Catch-all domain detected"); decide)
              rw [← hM] at H
              obtain ⟨H1, H2, H3⟩ := H
              split
              · exact ⟨H1, by show ¬(("Email is valid" : String) = "Catch-all domain detected"); decide⟩
              · split
                · refine ⟨H1, ?_⟩
                  show (M.lastError.getD "Failed to verify mailbox") ≠ "Catch-all domain detected"
                  cases hE : M.lastError with
                  | none => simp [Option.getD]
                  | some e =>
                    rw [hE] at H2
                    simpa using H2
                · exact ⟨H1, by show ¬(("Domain validation failed" : String) = "Catch-all domain detected"); decide⟩
    · rw [if_neg hf]
      exact ⟨rfl, by show ¬(("Invalid email format" : String) = "Catch-all domain detected"); decide⟩

theorem smtpAttempt_single_rcpt (sc : ServerScript) (email domain fromAddr : List Char) :
    (smtpAttempt sc email domain fromAddr).1.countP isRcptCmd ≤ 1 ∧
    (∀ r, (smtpAttempt sc email domain fromAddr).2 = Except.ok r →
      (smtpAttempt sc email domain fromAddr).1.countP isRcptCmd = 1 ∧ r.isCatchAll = false) := by
  simp only [smtpAttempt, smtpAfterHelo]
  split
  · constructor
    · simp
    · intro r hr
      simp at hr
  · split
    · split
      · constructor
        · simp [List.countP_append, List.countP_cons, List.countP_nil, isRcptCmd]
        · intro r hr
          simp at hr
      · constructor
        · simp [List.countP_append, List.countP_cons, List.countP_nil, isRcptCmd]
        · intro r hr
          simp only [Except.ok.injEq] at hr
          subst hr
          constructor
          · simp [List.countP_append, List.countP_cons, List.countP_nil, isRcptCmd]
          · rfl
    · split
      · split
        · constructor
          · simp [List.countP_append, List.countP_cons, List.countP_nil, isRcptCmd]
          · intro r hr
            simp at hr
        · constructor
          · simp [List.countP_append, List.countP_cons, List.countP_nil, isRcptCmd]
          · intro r hr
            simp only [Except.ok.injEq] at hr
            subst hr
            constructor
            · simp [List.countP_append, List.countP_cons, List.countP_nil, isRcptCmd]
            · rfl
      · constructor
        · simp [List.countP_append, List.countP_cons, List.countP_nil, isRcptCmd]
        · intro r hr
          simp at hr

def catchAllScript : ServerScript :=
  { greeting := "220 mx.catchall.example ESMTP".toList, ehlo := "250 OK".toList,
    helo := "250 OK".toList, mailFrom := "250 OK".toList, rcpt := "250 OK".toList }

def rcpt250cc : VerifyResult :=
  { success := true, mailboxExists := true, isCatchAll := false,
    code := some 250, message := some "OK".toList, error := none }

def envC2 : VEnv :=
  { dnsA := true, dnsAAAA := false, dnsCNAME := false,
    mxRaw := some [{ exchange := "mx.catchall.example".toList, priority := 10 }],
    txt := none,
    verify := fun _ => (smtpAttempt catchAllScript "user@catchall.example".toList
      "catchall.example".toList "verify.abc123@salesforce.com".toList).2 }

theorem envC2_hok : ∀ i r, envC2.verify i = Except.ok r →
    r.isCatchAll = false ∧ r.error ≠ some "Catch-all domain detected" := by
  intro i r hr
  have h2 : Except.ok rcpt250cc = Except.ok r := hr
  injection h2 with h
  subst h
  exact ⟨rfl, by decide⟩

theorem envC2_herr : ∀ i e, envC2.verify i = Except.error e →
    e ≠ "Catch-all domain detected" := by
  intro i e hr
  have h2 : Except.ok rcpt250cc = Except.error e := hr
  simp at h2

/-- Claim C2 (counterexample): against a catch-all server that answers
`250` to every `RCPT TO` (its scripted RCPT response is independent of the
recipient), the dialog issues exactly one RCPT command — no second probe
with a random local-part is ever sent — the completed result carries no
catch-all flag, and `validateEmail` under the generic profile (whose
`rejectCatchAll` is true) reports `valid = true`, `reason = Email is
valid` and `checks.catchAll = false` instead of the claimed catch-all
rejection. -/
theorem C2_counterexample :
    (smtpAttempt catchAllScript "user@catchall.example".toList "catchall.example".toList
      "verify.abc123@salesforce.com".toList).1.countP isRcptCmd = 1 ∧
    (smtpAttempt catchAllScript "user@catchall.example".toList "catchall.example".toList
      "verify.abc123@salesforce.com".toList).2.toOption = some rcpt250cc ∧
    genericConfig.rejectCatchAll = true ∧
    getProviderConfig "catchall.example".toList = genericConfig ∧
    (validateEmail (.str "user@catchall.example") envC2).checks.catchAll = false ∧
    (validateEmail (.str "user@catchall.example") envC2).valid = true ∧
    (validateEmail (.str "user@catchall.example") envC2).reason = "Email is valid" :=
  ⟨by decide, by decide, by decide, by decide, by decide, by decide, by decide⟩

/-- Claim C2 (amended): `verifyMailbox` issues at most one RCPT probe per
dialog — exactly one on a completed dialog, whose result object has no
catch-all flag (`isCatchAll` reads as false) — and consequently, for any
environment whose verify outcomes come from such dialogs (no catch-all
flag, and no error text spelling the catch-all reason), `validateEmail`
always reports `checks.catchAll = false` and never the reason
`Catch-all domain detected`: the catch-all rejection branch of email.js is
unreachable. -/
theorem C2_amended (sc : ServerScript) (email domain fromAddr : List Char)
    (emailJ : JSValue) (env : VEnv)
    (hok : ∀ i r, env.verify i = Except.ok r →
      r.isCatchAll = false ∧ r.error ≠ some "Catch-all domain detected")
    (herr : ∀ i e, env.verify i = Except.error e → e ≠ "Catch-all domain detected") :
    (smtpAttempt sc email domain fromAddr).1.countP isRcptCmd ≤ 1 ∧
    (∀ r, (smtpAttempt sc email domain fromAddr).2 = Except.ok r →
      (smtpAttempt sc email domain fromAddr).1.countP isRcptCmd = 1 ∧ r.isCatchAll = false) ∧
    (validateEmail emailJ env).checks.catchAll = false ∧
    (validateEmail emailJ env).reason ≠ "Catch-all domain detected" :=
  ⟨(smtpAttempt_single_rcpt sc email domain fromAddr).1,
   (smtpAttempt_single_rcpt sc email domain fromAddr).2,
   (validateEmail_no_catchAll emailJ env hok herr).1,
   (validateEmail_no_catchAll emailJ env hok herr).2⟩

/-- Claim C2 (witness): the amended theorem against the concrete catch-all
server of `envC2`. -/
theorem C2_amended_witness :
    ((∀ i r, envC2.verify i = Except.ok r →
        r.isCatchAll = false ∧ r.error ≠ some "Catch-all domain detected") ∧
      (∀ i e, envC2.verify i = Except.error e → e ≠ "Catch-all domain detected")) ∧
    ((smtpAttempt catchAllScript "user@catchall.example".toList "catchall.example".toList
        "verify.abc123@salesforce.com".toList).1.countP isRcptCmd ≤ 1 ∧
      (∀ r, (smtpAttempt catchAllScript "user@catchall.example".toList "catchall.example".toList
          "verify.abc123@salesforce.com".toList).2 = Except.ok r →
        (smtpAttempt catchAllScript "user@catchall.example".toList "catchall.example".toList
          "verify.abc123@salesforce.com".toList).1.countP isRcptCmd = 1 ∧ r.isCatchAll = false) ∧
      (validateEmail (.str "user@catchall.example") envC2).checks.catchAll = false ∧
      (validateEmail (.str "user@catchall.example") envC2).reason ≠ "Catch-all domain detected") :=
  ⟨⟨envC2_hok, envC2_herr⟩,
    C2_amended catchAllScript "user@catchall.example".toList "catchall.example".toList
      "verify.abc123@salesforce.com".toList (.str "user@catchall.example") envC2
      envC2_hok envC2_herr⟩

theorem scanLoop_spec (now : Int) (ps : List ProxyEntry) :
    ∀ (fuel idx : Nat), idx < ps.length →
      scanLoop now ps idx fuel =
        match ((List.range fuel).map fun k => (idx + k) % ps.length).find? (eligibleAt now ps) with
        | some i =>
          (some i,
            (match ps.get? i with
             | some p => ps.set i { p with lastUsed := now, connections := p.connections + 1 }
             | none => ps),
            (i + 1) % ps.length)
        | none => (none, ps, (idx + fuel) % ps.length) := by
  intro fuel
  induction fuel with
  | zero =>
    intro idx hidx
    simp [scanLoop, Nat.mod_eq_of_lt hidx]
  | succ fuel ih =>
    intro idx hidx
    have hn : 0 < ps.length := by omega
    cases hget : ps.get? idx with
    | none =>
      rw [List.get?_eq_none] at hget
      omega
    | some p =>
      rw [List.range_succ_eq_map]
      simp only [List.map_cons, List.map_map, List.find?]
      have hidx0 : (idx + 0) % ps.length = idx := by
        rw [Nat.add_zero, Nat.mod_eq_of_lt hidx]
      rw [hidx0]
      have helig : eligibleAt now ps idx = !skipProxy now p := by
        unfold eligibleAt
        rw [hget]
      by_cases hskip : skipProxy now p = true
      · have he : eligibleAt now ps idx = false := by rw [helig, hskip]; rfl
        rw [he]
        simp only [scanLoop, hget, hskip, if_true]
        have hlt : (idx + 1) % ps.length < ps.length := Nat.mod_lt _ (by omega)
        rw [ih ((idx + 1) % ps.length) hlt]
        have hmap : ((List.range fuel).map fun k => ((idx + 1) % ps.length + k) % ps.length) =
            ((List.range fuel).map ((fun k => (idx + k) % ps.length) ∘ Nat.succ)) := by
          refine List.map_congr_left ?_
          intro k _
          simp only [Function.comp_apply]
          rw [Nat.mod_add_mod]
          congr 1
          omega
        rw [← hmap]
        have hcur : ((idx + 1) % ps.length + fuel) % ps.length = (idx + (fuel + 1)) % ps.length := by
          rw [Nat.mod_add_mod]
          congr 1
          omega
        rw [hcur]
      · have hskip' : skipProxy now p = false := by
          cases h2 : skipProxy now p
          · rfl
          · exact absurd h2 hskip
        have he : eligibleAt now ps idx = true := by rw [helig, hskip']; rfl
        rw [he]
        simp only [scanLoop, hget, hskip', if_false]
        rfl

theorem resetAll_length (ps : List ProxyEntry) : (resetAll ps).length = ps.length := by
  simp [resetAll]

theorem mem_scanOrder_lt (n c i : Nat) (hn : 0 < n) (h : i ∈ scanOrder n c) : i < n := by
  simp only [scanOrder, List.mem_map, List.mem_range] at h
  obtain ⟨k, _, hk⟩ := h
  subst hk
  exact Nat.mod_lt _ hn

theorem acquireSpec_some (t : PoolState) (now : Int) (i : Nat) (t' : PoolState)
    (hn : 0 < t.proxies.length)
    (h : acquireSpec t now = (some i, t')) :
    ∃ p, t'.proxies.get? i = some p ∧ p.failures < MAX_FAILURES ∧ 0 < p.connections ∧
      p.connections ≤ MAX_CONNECTIONS ∧ p.lastUsed = now := by
  unfold acquireSpec at h
  cases hfe : firstEligibleIdx now t with
  | none => rw [hfe] at h; simp at h
  | some j =>
    rw [hfe] at h
    simp only [] at h
    have helig : eligibleAt now t.proxies j = true := List.find?_some hfe
    have hjn : j < t.proxies.length :=
      mem_scanOrder_lt _ _ _ hn (List.mem_of_find?_eq_some hfe)
    cases hget : t.proxies.get? j with
    | none =>
      unfold eligibleAt at helig
      rw [hget] at helig
      simp at helig
    | some p =>
      rw [hget] at h
      have hij : i = j ∧ t' = ⟨t.proxies.set j { p with lastUsed := now, connections := p.connections + 1 }, (j + 1) % t.proxies.length⟩ := by
        have h1 := congrArg Prod.fst h
        have h2 := congrArg Prod.snd h
        simp at h1 h2
        exact ⟨h1.symm, h2.symm⟩
      obtain ⟨hij1, hij2⟩ := hij
      subst hij1
      subst hij2
      refine ⟨{ p with lastUsed := now, connections := p.connections + 1 }, ?_, ?_, ?_, ?_, rfl⟩
      · exact List.get?_set_eq_of_lt _ hjn
      · unfold eligibleAt at helig
        rw [hget] at helig
        simp only [skipProxy, Bool.not_eq_true', Bool.or_eq_false_iff,
          decide_eq_false_iff_not] at helig
        simpa [MAX_FAILURES] using helig.1.1
      · simp
      · unfold eligibleAt at helig
        rw [hget] at helig
        simp only [skipProxy, Bool.not_eq_true', Bool.or_eq_false_iff,
          decide_eq_false_iff_not] at helig
        have := helig.1.2
        simp only [MAX_CONNECTIONS] at this ⊢
        omega

theorem getNextProxyGo_reset_eq_spec (ps : List ProxyEntry) (c : Nat) (now : Int)
    (hne : ps ≠ []) (hc : c < ps.length) :
    getNextProxyGo 0 ⟨resetAll ps, c⟩ now = acquireSpec ⟨resetAll ps, c⟩ now := by
  have hlen : (resetAll ps).length = ps.length := resetAll_length ps
  have hn0 : ¬((resetAll ps).length = 0) := by
    rw [hlen]
    simp [List.length_eq_zero]
    exact hne
  unfold getNextProxyGo
  rw [if_neg hn0]
  simp only []
  rw [scanLoop_spec now (resetAll ps) (resetAll ps).length c (by rw [hlen]; exact hc)]
  unfold acquireSpec firstEligibleIdx scanOrder
  simp only []
  cases hfe : ((List.range (resetAll ps).length).map
      fun k => (c + k) % (resetAll ps).length).find? (eligibleAt now (resetAll ps)) with
  | some i =>
    simp only []
    have hin : i < (resetAll ps).length :=
      mem_scanOrder_lt _ _ _ (by rw [hlen]; omega ) (List.mem_of_find?_eq_some hfe)
    cases hget : (resetAll ps).get? i with
    | none =>
      rw [List.get?_eq_none] at hget
      omega
    | some p => simp only []
  | none =>
    simp only []
    have hcur : (c + (resetAll ps).length) % (resetAll ps).length = c := by
      rw [Nat.add_mod_right, Nat.mod_eq_of_lt (by rw [hlen]; exact hc)]
    rw [hcur]
    by_cases hall : ((resetAll ps).all fun p => decide (p.failures ≥ MAX_FAILURES)) = true
    · rw [if_pos hall]
    · rw [if_neg hall]

/-- Claim C3: on a nonempty pool with an in-range cursor, `getNextProxy`
equals the specification-side `acquireSpec`: it scans at most one full
cycle from the cursor (the scan-order list) and returns its first eligible
index (failures below `MAX_FAILURES = 3`, connections below
`MAX_CONNECTIONS = 3`, and at least `COOLDOWN_PERIOD = 30 s` since last
use), stamping `lastUsed = now` and incrementing its connection count —
except that when no index is eligible and every proxy has reached
`MAX_FAILURES`, all failure counts, connection counts and timestamps are
zeroed and one single retry runs over the reset pool (`acquireSpec`
contains no further reset).  In every case a returned proxy satisfies
`failures < MAX_FAILURES` and had `connections < MAX_CONNECTIONS` before
the increment. -/
theorem C3_acquire (s : PoolState) (now : Int) (hne : s.proxies ≠ [])
    (hidx : s.currentIndex < s.proxies.length) :
    (getNextProxy s now =
      if firstEligibleIdx now s = none ∧
          s.proxies.all (fun p => decide (p.failures ≥ MAX_FAILURES)) = true then
        acquireSpec ⟨resetAll s.proxies, s.currentIndex⟩ now
      else acquireSpec s now) ∧
    (∀ i s', getNextProxy s now = (some i, s') →
      ∃ p, s'.proxies.get? i = some p ∧ p.failures < MAX_FAILURES ∧
        0 < p.connections ∧ p.connections ≤ MAX_CONNECTIONS ∧ p.lastUsed = now) := by
  have hn0 : ¬(s.proxies.length = 0) := by
    simp only [List.length_eq_zero]
    exact hne
  have part1 : getNextProxy s now =
      if firstEligibleIdx now s = none ∧
          s.proxies.all (fun p => decide (p.failures ≥ MAX_FAILURES)) = true then
        acquireSpec ⟨resetAll s.proxies, s.currentIndex⟩ now
      else acquireSpec s now := by
    unfold getNextProxy getNextProxyGo
    rw [if_neg hn0]
    simp only []
    rw [scanLoop_spec now s.proxies s.proxies.length s.currentIndex hidx]
    cases hfe : firstEligibleIdx now s with
    | some i =>
      have hfe' : ((List.range s.proxies.length).map
          fun k => (s.currentIndex + k) % s.proxies.length).find? (eligibleAt now s.proxies) =
          some i := hfe
      rw [hfe']
      simp only []
      have hin : i < s.proxies.length :=
        mem_scanOrder_lt _ _ _ (by omega) (List.mem_of_find?_eq_some hfe')
      cases hget : s.proxies.get? i with
      | none =>
        rw [List.get?_eq_none] at hget
        omega
      | some p =>
        have hcond : ¬(some i = none ∧
            (s.proxies.all fun p => decide (p.failures ≥ MAX_FAILURES)) = true) :=
          fun hcond => Option.some_ne_none i hcond.1
        rw [if_neg hcond]
        unfold acquireSpec
        rw [hfe]
        simp only []
        rw [hget]
    | none =>
      have hfe' : ((List.range s.proxies.length).map
          fun k => (s.currentIndex + k) % s.proxies.length).find? (eligibleAt now s.proxies) =
          none := hfe
      rw [hfe']
      simp only []
      have hcur : (s.currentIndex + s.proxies.length) % s.proxies.length = s.currentIndex := by
        rw [Nat.add_mod_right, Nat.mod_eq_of_lt hidx]
      rw [hcur]
      by_cases hall : (s.proxies.all fun p => decide (p.failures ≥ MAX_FAILURES)) = true
      · rw [if_pos hall]
        rw [if_pos ⟨trivial, hall⟩]
        exact getNextProxyGo_reset_eq_spec s.proxies s.currentIndex now hne hidx
      · rw [if_neg hall, if_neg (fun hcond => hall hcond.2)]
        unfold acquireSpec
        rw [hfe]
  refine ⟨part1, ?_⟩
  intro i s' h
  rw [part1] at h
  by_cases hcond : firstEligibleIdx now s = none ∧
      (s.proxies.all fun p => decide (p.failures ≥ MAX_FAILURES)) = true
  · rw [if_pos hcond] at h
    exact acquireSpec_some _ now i s' (by simp only [resetAll_length]; omega) h
  · rw [if_neg hcond] at h
    exact acquireSpec_some _ now i s' (by omega) h

theorem resetAll_not_all_failed (ps : List ProxyEntry) (hne : ps ≠ []) :
    ((resetAll ps).all fun p => decide (p.failures ≥ MAX_FAILURES)) = false := by
  cases ps with
  | nil => contradiction
  | cons p ps' => simp [resetAll, MAX_FAILURES]

theorem getNextProxyGo_budget_immaterial (b1 b2 : Nat) (ps : List ProxyEntry) (c : Nat)
    (now : Int) (hne : ps ≠ []) (hc : c < ps.length) :
    getNextProxyGo b1 ⟨resetAll ps, c⟩ now = getNextProxyGo b2 ⟨resetAll ps, c⟩ now := by
  have hlen : (resetAll ps).length = ps.length := resetAll_length ps
  have hn0 : ¬((resetAll ps).length = 0) := by
    rw [hlen]
    simp only [List.length_eq_zero]
    exact hne
  unfold getNextProxyGo
  rw [if_neg hn0, if_neg hn0]
  simp only []
  rw [scanLoop_spec now (resetAll ps) (resetAll ps).length c (by rw [hlen]; exact hc)]
  cases hfe : ((List.range (resetAll ps).length).map
      fun k => (c + k) % (resetAll ps).length).find? (eligibleAt now (resetAll ps)) with
  | some i => rfl
  | none =>
    simp only []
    rw [resetAll_not_all_failed ps hne]
    simp only [Bool.false_eq_true, if_false]

/-- A fixed two-proxy pool: the first entry has exhausted its failure
budget, the second is fresh. -/
def poolW : PoolState :=
  { proxies := [{ host := "p0", port := 1080, failures := 3, connections := 0, lastUsed := 0 },
                { host := "p1", port := 1081, failures := 0, connections := 0, lastUsed := 0 }],
    currentIndex := 0 }

/-- Claim C3 (witness): the acquisition theorem on the concrete pool
`poolW` at time 50000. -/
theorem C3_acquire_witness :
    (poolW.proxies ≠ [] ∧ poolW.currentIndex < poolW.proxies.length) ∧
    ((getNextProxy poolW 50000 =
      if firstEligibleIdx 50000 poolW = none ∧
          poolW.proxies.all (fun p => decide (p.failures ≥ MAX_FAILURES)) = true then
        acquireSpec ⟨resetAll poolW.proxies, poolW.currentIndex⟩ 50000
      else acquireSpec poolW 50000) ∧
    (∀ i s', getNextProxy poolW 50000 = (some i, s') →
      ∃ p, s'.proxies.get? i = some p ∧ p.failures < MAX_FAILURES ∧
        0 < p.connections ∧ p.connections ≤ MAX_CONNECTIONS ∧ p.lastUsed = 50000)) :=
  ⟨⟨by decide, by decide⟩, C3_acquire poolW 50000 (by decide) (by decide)⟩

theorem getNextProxy_empty (s : PoolState) (now : Int) (h : s.proxies = []) :
    getNextProxy s now = (none, s) := by
  unfold getNextProxy getNextProxyGo
  rw [if_pos (by rw [h]; rfl)]

/-- The empty pool. -/
def emptyPool : PoolState := { proxies := [], currentIndex := 0 }

/-- Claim C4 (counterexample): with no proxies loaded, even though the
network environment would let every connection and every dialog step
succeed, `verifyMailbox` never dials anything (`createProxyConnection` is
never reached, so its direct-dial branch cannot run) and after three
attempts reports failure — the empty pool by itself makes the
verification attempt fail. -/
theorem C4_counterexample :
    (getNextProxy emptyPool 1000000).1 = none ∧
    (verifyMailboxRun (fun _ => { connect := Except.ok (), script := catchAllScript })
      (fun _ => 1000000) "user@example.com".toList "example.com".toList
      "verify.abc123@salesforce.com".toList emptyPool).result.success = false ∧
    (verifyMailboxRun (fun _ => { connect := Except.ok (), script := catchAllScript })
      (fun _ => 1000000) "user@example.com".toList "example.com".toList
      "verify.abc123@salesforce.com".toList emptyPool).result.error =
        some "Verification failed after 3 attempts" ∧
    (verifyMailboxRun (fun _ => { connect := Except.ok (), script := catchAllScript })
      (fun _ => 1000000) "user@example.com".toList "example.com".toList
      "verify.abc123@salesforce.com".toList emptyPool).dials = [] :=
  ⟨by decide, by decide, by decide, by decide⟩

/-- Claim C4 (amended): on an empty pool `getNextProxy` returns none, and
`verifyMailbox` throws `No available proxies` on each of its three
attempts — dialling nothing, in any environment — and returns the failure
object `Verification failed after 3 attempts`.  The direct-dial branch of
`createProxyConnection` is unreachable from `verifyMailbox`, which throws
before calling it whenever the pool hands out no proxy. -/
theorem C4_amended (env : Nat → AttemptEnv) (nows : Nat → Int)
    (email domain fromAddr : List Char) (pool : PoolState) (h : pool.proxies = []) :
    (∀ now, getNextProxy pool now = (none, pool)) ∧
    verifyMailboxRun env nows email domain fromAddr pool =
      { result := verifyFailRes, pool := pool, dials := [] } := by
  have he : ∀ now, getNextProxy pool now = (none, pool) :=
    fun now => getNextProxy_empty pool now h
  refine ⟨he, ?_⟩
  simp only [verifyMailboxRun, verifyMailboxGo, he]

/-- Claim C4 (witness): the amended theorem on the empty pool with a
permissive concrete environment. -/
theorem C4_amended_witness :
    emptyPool.proxies = [] ∧
    ((∀ now, getNextProxy emptyPool now = (none, emptyPool)) ∧
    verifyMailboxRun (fun _ => { connect := Except.ok (), script := catchAllScript })
      (fun _ => 1000000) "user@example.com".toList "example.com".toList
      "verify.abc123@salesforce.com".toList emptyPool =
      { result := verifyFailRes, pool := emptyPool, dials := [] }) :=
  ⟨by decide, C4_amended (fun _ => { connect := Except.ok (), script := catchAllScript })
    (fun _ => 1000000) "user@example.com".toList "example.com".toList
    "verify.abc123@salesforce.com".toList emptyPool (by decide)⟩

/-- Operations on the shared pool as performed by `verifyMailbox`:
an acquire (`getNextProxy`); a failed dialog on an established proxied
connection, which runs `markProxyFailure` from the catch block of
smtp.js and then `releaseProxy` from the socket-close handler installed by
`createProxyConnection`; and a completed dialog, which runs
`markProxySuccess` and then the close-handler release. -/
inductive PoolOp where
  | acquireOp (now : Int)
  | failedDialogOp (i : Nat)
  | successDialogOp (i : Nat)
deriving DecidableEq

/-- Run one pool operation, counting successful acquires and finished
dialogs (each dialog pairs with exactly one acquire). -/
def applyPoolOp : PoolState × Nat × Nat → PoolOp → PoolState × Nat × Nat
  | (s, acq, done), .acquireOp now =>
    (match getNextProxy s now with
     | (some _, s') => (s', acq + 1, done)
     | (none, s') => (s', acq, done))
  | (s, acq, done), .failedDialogOp i => (releaseProxy (markProxyFailure s i) i, acq, done + 1)
  | (s, acq, done), .successDialogOp i => (releaseProxy (markProxySuccess s i) i, acq, done + 1)

def runPoolOps (s : PoolState) (ops : List PoolOp) : PoolState × Nat × Nat :=
  ops.foldl applyPoolOp (s, 0, 0)

/-- A single fresh proxy. -/
def poolC7 : PoolState :=
  { proxies := [{ host := "p", port := 1080, failures := 0, connections := 0, lastUsed := 0 }],
    currentIndex := 0 }

/-- Claim C7 (counterexample): two successful acquires of the same proxy
followed by one failed dialog leave its connection count at 0, although
only one of the two acquires has been paired — the outstanding count is
2 − 1 = 1.  The failed dialog decremented the count twice (mark_failure
and the close-handler release), so the invariant `connections =
outstanding acquires` is broken. -/
theorem C7_counterexample :
    ((runPoolOps poolC7
        [.acquireOp 30000, .acquireOp 60000, .failedDialogOp 0]).1.proxies.get? 0).map
      ProxyEntry.connections = some 0 ∧
    (runPoolOps poolC7 [.acquireOp 30000, .acquireOp 60000, .failedDialogOp 0]).2.1 = 2 ∧
    (runPoolOps poolC7 [.acquireOp 30000, .acquireOp 60000, .failedDialogOp 0]).2.2 = 1 ∧
    (2 : Nat) - 1 = 1 ∧ (0 : Nat) ≠ 1 :=
  ⟨by decide, by decide, by decide, by decide, by decide⟩

/-- Claim C7 (amended): a failed SMTP dialog on an established proxied
connection is not paired with exactly one decrement: it performs both
`markProxyFailure` (catch block) and `releaseProxy` (socket-close
handler), so the proxy's connection count drops by two — clamped at zero,
`c - 1 - 1 = max(0, c - 2)` — while a completed dialog drops it by one.
With further acquires outstanding, the count therefore undercounts them. -/
theorem C7_amended (s : PoolState) (i : Nat) (p : ProxyEntry)
    (h : s.proxies.get? i = some p) :
    (releaseProxy (markProxyFailure s i) i).proxies.get? i =
      some { p with failures := p.failures + 1, connections := p.connections - 1 - 1 } ∧
    (releaseProxy (markProxySuccess s i) i).proxies.get? i =
      some { p with failures := 0, connections := p.connections - 1 } := by
  have hlt : i < s.proxies.length := by
    rcases List.get?_eq_some.1 h with ⟨hl, _⟩
    exact hl
  constructor
  · unfold releaseProxy markProxyFailure modifyProxy
    rw [h]
    simp only []
    rw [List.get?_set_eq_of_lt _ hlt]
    simp only []
    rw [List.get?_set_eq_of_lt]
    simp [List.length_set]
    omega
  · unfold releaseProxy markProxySuccess modifyProxy
    rw [h]
    simp only []
    rw [List.get?_set_eq_of_lt _ hlt]
    simp only []
    rw [List.get?_set_eq_of_lt]
    simp [List.length_set]
    omega

/-- The proxy of `poolC7` after two acquires: two live connections. -/
def pC7 : ProxyEntry :=
  { host := "p", port := 1080, failures := 0, connections := 2, lastUsed := 60000 }

/-- A pool holding `pC7` alone. -/
def poolC7b : PoolState := { proxies := [pC7], currentIndex := 0 }

/-- Claim C7 (witness): the amended theorem on the proxy of `poolC7b` with
two live connections. -/
theorem C7_amended_witness :
    poolC7b.proxies.get? 0 = some pC7 ∧
    ((releaseProxy (markProxyFailure poolC7b 0) 0).proxies.get? 0 =
      some { pC7 with failures := pC7.failures + 1, connections := pC7.connections - 1 - 1 } ∧
    (releaseProxy (markProxySuccess poolC7b 0) 0).proxies.get? 0 =
      some { pC7 with failures := 0, connections := pC7.connections - 1 }) :=
  ⟨by decide, C7_amended poolC7b 0 pC7 (by decide)⟩

def bulkStateOf {α : Type} (f : String → α) (l : List String) : BulkState α :=
  { batch := l.drop (l.length - l.length % 5),
    processed := l.length - l.length % 5,
    results := (l.take (l.length - l.length % 5)).map f }

theorem bulkStateOf_snoc_flush {α : Type} (f : String → α) (l : List String) (e : String)
    (h5 : l.length % 5 = 4) :
    bulkStateOf f (l ++ [e]) =
      { batch := [], processed := (l.length - l.length % 5) + (l.length % 5 + 1),
        results := (l.take (l.length - l.length % 5)).map f ++
          ((l.drop (l.length - l.length % 5)) ++ [e]).map f } := by
  unfold bulkStateOf
  have hlen : (l ++ [e]).length = l.length + 1 := by simp
  have e1 : (l.length + 1) % 5 = 0 := by omega
  rw [hlen, e1]
  simp only [Nat.sub_zero]
  congr 1
  · rw [← hlen, List.drop_length]
  · omega
  · rw [← List.map_append]
    congr 1
    rw [← List.append_assoc, List.take_append_drop, ← hlen, List.take_length]

theorem bulkStateOf_snoc_stay {α : Type} (f : String → α) (l : List String) (e : String)
    (h5 : l.length % 5 ≠ 4) :
    bulkStateOf f (l ++ [e]) =
      { batch := l.drop (l.length - l.length % 5) ++ [e],
        processed := l.length - l.length % 5,
        results := (l.take (l.length - l.length % 5)).map f } := by
  unfold bulkStateOf
  have hlen : (l ++ [e]).length = l.length + 1 := by simp
  have e1 : (l.length + 1) % 5 = l.length % 5 + 1 := by omega
  have e2 : l.length + 1 - (l.length % 5 + 1) = l.length - l.length % 5 := by omega
  have hle : l.length - l.length % 5 ≤ l.length := by omega
  rw [hlen, e1, e2]
  congr 1
  · rw [List.drop_append_of_le_length hle]
  · rw [List.take_append_of_le_length hle]

theorem bulkFold_eq {α : Type} (f : String → α) (total : Nat) :
    ∀ (rows : List CsvRecord) (l : List String),
      l.length + (rows.filterMap getEmailField).length < total →
      rows.foldl (bulkStep f total) (bulkStateOf f l) =
        bulkStateOf f (l ++ rows.filterMap getEmailField) := by
  intro rows
  induction rows with
  | nil =>
    intro l h
    simp [List.filterMap_nil]
  | cons r rest ih =>
    intro l h
    simp only [List.foldl_cons]
    cases hg : getEmailField r with
    | none =>
      have hstep : bulkStep f total (bulkStateOf f l) r = bulkStateOf f l := by
        unfold bulkStep
        rw [hg]
      rw [hstep]
      simp only [List.filterMap_cons, hg] at h ⊢
      exact ih l h
    | some e =>
      simp only [List.filterMap_cons, hg] at h ⊢
      have hblen : ((bulkStateOf f l).batch ++ [e]).length = l.length % 5 + 1 := by
        simp only [bulkStateOf, List.length_append, List.length_drop, List.length_cons,
          List.length_nil]
        omega
      have hnot : ¬((bulkStateOf f l).processed + ((bulkStateOf f l).batch ++ [e]).length =
          total) := by
        rw [hblen]
        simp only [bulkStateOf]
        simp only [List.length_cons] at h
        omega
      have hstep : bulkStep f total (bulkStateOf f l) r = bulkStateOf f (l ++ [e]) := by
        unfold bulkStep
        rw [hg]
        simp only []
        by_cases h5 : l.length % 5 = 4
        · rw [if_pos (Or.inl (by rw [hblen, h5]))]
          rw [bulkStateOf_snoc_flush f l e h5]
          simp only [bulkStateOf]
          congr 1
          · rw [List.length_append, List.length_drop, List.length_cons, List.length_nil]
            omega
        · rw [if_neg (by
            intro hor
            rcases hor with h1 | h2
            · rw [hblen] at h1
              omega
            · exact hnot h2)]
          rw [bulkStateOf_snoc_stay f l e h5]
          simp only [bulkStateOf]
      rw [hstep]
      have harg : (l ++ [e]).length + (List.filterMap getEmailField rest).length < total := by
        simp only [List.length_append, List.length_cons, List.length_nil]
        simp only [List.length_cons] at h
        omega
      refine (ih (l ++ [e]) harg).trans ?_
      rw [List.append_assoc]
      rfl

theorem length_filterMap_lt_of_none (rows : List CsvRecord) (r : CsvRecord)
    (hr : r ∈ rows) (hg : getEmailField r = none) :
    (rows.filterMap getEmailField).length < rows.length := by
  induction rows with
  | nil => cases hr
  | cons r' rest ih =>
    rcases List.mem_cons.1 hr with h1 | h2
    · subst h1
      simp only [List.filterMap_cons, hg]
      have hle := List.length_filterMap_le getEmailField rest
      simp only [List.length_cons]
      omega
    · cases hg' : getEmailField r' with
      | none =>
        simp only [List.filterMap_cons, hg']
        have := ih h2
        simp only [List.length_cons]
        omega
      | some e =>
        simp only [List.filterMap_cons, hg']
        have := ih h2
        simp only [List.length_cons, List.length_cons]
        omega

/-- Claim C10: in the bulk CSV loop, a data row without a truthy
email/Email/EMAIL field contributes no result; and because the first-pass
`total` counts every data row, the flush condition
`processed + batch.length === total` can never fire once such a row
exists, so only full batches of 5 are validated: the complete event's
results are exactly the per-item results of the longest 5-multiple prefix
of the extracted emails, strictly shorter than both the email count and
the number of CSV data rows when the email count is not a multiple of 5. -/
theorem C10_bulk_trailing {α : Type} (f : String → α) (rows : List CsvRecord) (r : CsvRecord)
    (hr : r ∈ rows) (hg : getEmailField r = none)
    (h5 : (rows.filterMap getEmailField).length % 5 ≠ 0) :
    bulkRun f rows =
      ((rows.filterMap getEmailField).take
        ((rows.filterMap getEmailField).length -
          (rows.filterMap getEmailField).length % 5)).map f ∧
    (bulkRun f rows).length < (rows.filterMap getEmailField).length ∧
    (bulkRun f rows).length < rows.length := by
  have hM := length_filterMap_lt_of_none rows r hr hg
  have h0 : ([] : List String).length + (rows.filterMap getEmailField).length < rows.length := by
    simpa using hM
  have heq : bulkRun f rows = ((rows.filterMap getEmailField).take
      ((rows.filterMap getEmailField).length -
        (rows.filterMap getEmailField).length % 5)).map f := by
    unfold bulkRun
    have hinit : (⟨[], 0, []⟩ : BulkState α) = bulkStateOf f [] := rfl
    rw [hinit, bulkFold_eq f rows.length rows [] h0]
    simp only [bulkStateOf, List.nil_append]
  refine ⟨heq, ?_, ?_⟩
  · rw [heq]
    simp only [List.length_map, List.length_take]
    omega
  · rw [heq]
    simp only [List.length_map, List.length_take]
    omega

/-- A data row carrying no email column. -/
def rowNoEmail : CsvRecord := { email := none, emailCap := none, emailUpper := none }

/-- Two CSV data rows: one with an email, one without. -/
def rowsC10 : List CsvRecord :=
  [{ email := some "a@b.co", emailCap := none, emailUpper := none }, rowNoEmail]

/-- Claim C10 (witness): the bulk theorem on a two-row CSV whose second
row has no email: the single extracted email is never validated and the
results list is empty. -/
theorem C10_bulk_trailing_witness :
    (rowNoEmail ∈ rowsC10 ∧ getEmailField rowNoEmail = none ∧
      (rowsC10.filterMap getEmailField).length % 5 ≠ 0) ∧
    (bulkRun (fun _ => (0 : Nat)) rowsC10 =
      ((rowsC10.filterMap getEmailField).take
        ((rowsC10.filterMap getEmailField).length -
          (rowsC10.filterMap getEmailField).length % 5)).map (fun _ => (0 : Nat)) ∧
    (bulkRun (fun _ => (0 : Nat)) rowsC10).length <
      (rowsC10.filterMap getEmailField).length ∧
    (bulkRun (fun _ => (0 : Nat)) rowsC10).length < rowsC10.length) :=
  ⟨⟨by decide, by decide, by decide⟩,
    C10_bulk_trailing (fun _ => (0 : Nat)) rowsC10 rowNoEmail (by decide) (by decide) (by decide)⟩
